import Mathlib

/-!
Verification of the resolution and range-expansion engine of the `fierce`
DNS reconnaissance tool.  The repository ships the engine's test suite
(`tests/test_fierce.py`); the engine module itself (`fierce/fierce.py`) is
not among the staged files, so every operation below is modelled from the
design document's contracts (sections 4.1-4.6), with the test suite fixing
the concrete behaviour at the points the tests pin down.

IPv4 addresses are modelled as natural numbers below 2^32 (the integer
value of the four octets); domain names as ordered label lists, absolute
when the final label is the empty root label.
-/

/-- Modelled from the spec: the base address of an IPv4 address's containing
/24 block (the address with the same first three octets and last octet 0).
`fierce/fierce.py` is not in the staged sources. -/
def classCFloor (ip : Nat) : Nat := ip - ip % 256

/-- Modelled from the spec (section 4.5): `traverse_expander(ip, expand)`
produces the ordered sequence of addresses from `ip - expand` to
`ip + expand` inclusive, clamped to the containing /24 block.
`fierce/fierce.py` is not in the staged sources. -/
def traverse_expander (ip : Nat) (expand : Nat) : List Nat :=
  let lo := max (ip - expand) (classCFloor ip)
  let hi := min (ip + expand) (classCFloor ip + 255)
  (List.range (hi + 1 - lo)).map (fun i => lo + i)

/-- Modelled from the spec (section 4.5): `wide_expander(ip)` produces the
full ordered sequence of the 256 addresses of `ip`'s containing /24 block,
last octet 0 through 255.  `fierce/fierce.py` is not in the staged
sources. -/
def wide_expander (ip : Nat) : List Nat :=
  (List.range 256).map (fun i => classCFloor ip + i)

theorem classCFloor_eq (ip : Nat) : classCFloor ip = ip / 256 * 256 := by
  unfold classCFloor
  omega

/-- C1: `traverse_expander ip expand` is exactly the ascending run of
addresses sharing `ip`'s first three octets whose last octet goes from
`max (lastOctet ip - expand) 0` (which in truncated natural subtraction is
`ip % 256 - expand`) to `min (lastOctet ip + expand) 255`: no generated
address leaves the containing /24 block, and near octet 0 or 255 the window
is asymmetric rather than an error. -/
theorem traverse_expander_window (ip expand : Nat) (hip : ip < 4294967296) :
    traverse_expander ip expand =
      List.range' (ip / 256 * 256 + (ip % 256 - expand))
        (min (ip % 256 + expand) 255 + 1 - (ip % 256 - expand)) ∧
    (∀ x ∈ traverse_expander ip expand, x / 256 = ip / 256) ∧
    (traverse_expander ip expand).map (fun x => x % 256) =
      List.range' (ip % 256 - expand)
        (min (ip % 256 + expand) 255 + 1 - (ip % 256 - expand)) := by
  have hmain : traverse_expander ip expand =
      List.range' (ip / 256 * 256 + (ip % 256 - expand))
        (min (ip % 256 + expand) 255 + 1 - (ip % 256 - expand)) := by
    simp only [traverse_expander, classCFloor]
    rw [List.range'_eq_map_range]
    have hlo : max (ip - expand) (ip - ip % 256) =
        ip / 256 * 256 + (ip % 256 - expand) := by omega
    have hhi : min (ip + expand) (ip - ip % 256 + 255) + 1 -
        max (ip - expand) (ip - ip % 256) =
        min (ip % 256 + expand) 255 + 1 - (ip % 256 - expand) := by omega
    rw [hhi, hlo]
  refine ⟨hmain, ?_, ?_⟩
  · intro x hx
    rw [hmain] at hx
    rw [List.mem_range'] at hx
    obtain ⟨i, hi, hx⟩ := hx
    omega
  · rw [hmain]
    apply List.ext_getElem
    · simp
    · intro i h1 h2
      simp only [List.getElem_map, List.getElem_range']
      simp only [List.length_map, List.length_range'] at h1
      omega

/-- Witness for C1 at the concrete input of the repository's upper-boundary
test: 192.168.1.254 with expand 2. -/
theorem traverse_expander_window_witness :
    traverse_expander 3232236030 2 =
      List.range' (3232236030 / 256 * 256 + (3232236030 % 256 - 2))
        (min (3232236030 % 256 + 2) 255 + 1 - (3232236030 % 256 - 2)) ∧
    (∀ x ∈ traverse_expander 3232236030 2, x / 256 = 3232236030 / 256) ∧
    (traverse_expander 3232236030 2).map (fun x => x % 256) =
      List.range' (3232236030 % 256 - 2)
        (min (3232236030 % 256 + 2) 255 + 1 - (3232236030 % 256 - 2)) :=
  traverse_expander_window 3232236030 2 (by decide)

/-- C2 counterexample: at 192.168.1.1 (integer 3232235777) with expand 2 the
returned sequence is clamped at the lower /24 boundary and has length 4, not
2 * 2 + 1 = 5. -/
theorem traverse_expander_length_cex :
    (traverse_expander 3232235777 2).length = 4 ∧
    ¬ (traverse_expander 3232235777 2).length = 2 * 2 + 1 := by
  have h4 : (traverse_expander 3232235777 2).length = 4 := rfl
  refine ⟨h4, fun h => ?_⟩
  omega

/-- C2 amended: whenever the expansion window stays inside the containing
/24 block (`expand ≤ lastOctet ip` and `lastOctet ip + expand ≤ 255`),
`traverse_expander ip expand` runs from `ip - expand` to `ip + expand`
inclusive and has length exactly `2 * expand + 1`; at the /24 boundary the
sequence is clamped and shorter. -/
theorem traverse_expander_interior (ip expand : Nat)
    (h1 : expand ≤ ip % 256) (h2 : ip % 256 + expand ≤ 255) :
    traverse_expander ip expand = List.range' (ip - expand) (2 * expand + 1) ∧
    (traverse_expander ip expand).length = 2 * expand + 1 := by
  have hmain : traverse_expander ip expand =
      List.range' (ip - expand) (2 * expand + 1) := by
    simp only [traverse_expander, classCFloor]
    rw [List.range'_eq_map_range]
    have hlo : max (ip - expand) (ip - ip % 256) = ip - expand := by omega
    have hhi : min (ip + expand) (ip - ip % 256 + 255) + 1 -
        max (ip - expand) (ip - ip % 256) = 2 * expand + 1 := by omega
    rw [hhi, hlo]
  refine ⟨hmain, ?_⟩
  rw [hmain, List.length_range']

/-- Witness for the amended C2 at 192.168.1.50 with expand 2: the window
192.168.1.48 .. 192.168.1.52 of length 5. -/
theorem traverse_expander_interior_witness :
    traverse_expander 3232235826 2 = List.range' (3232235826 - 2) (2 * 2 + 1) ∧
    (traverse_expander 3232235826 2).length = 2 * 2 + 1 :=
  traverse_expander_interior 3232235826 2 (by decide) (by decide)

/-- C5: `wide_expander ip` has exactly 256 elements, is the ascending run of
the full /24 block of `ip` (first three octets of `ip`, last octet 0 to
255), and depends only on `ip`'s first three octets: two addresses in the
same /24 yield the identical 256-element sequence. -/
theorem wide_expander_full_block (ip : Nat) :
    (wide_expander ip).length = 256 ∧
    wide_expander ip = List.range' (ip / 256 * 256) 256 ∧
    (∀ ip2, ip2 / 256 = ip / 256 → wide_expander ip2 = wide_expander ip) := by
  have hmain : ∀ n : Nat, wide_expander n = List.range' (n / 256 * 256) 256 := by
    intro n
    unfold wide_expander
    rw [List.range'_eq_map_range, classCFloor_eq]
  refine ⟨?_, hmain ip, ?_⟩
  · rw [hmain ip, List.length_range']
  · intro ip2 h
    rw [hmain ip, hmain ip2, h]

/-- Modelled from the spec (section 3): the text form of a DomainName, its
labels joined by dots; an absolute name ends in the empty root label, so its
text ends in a dot, and the root itself reads as the empty string.
`fierce/fierce.py` is not in the staged sources. -/
def domainToText (d : List String) : String := String.intercalate "." d

/-- The ascent levels of a DomainName: the text of the name itself, then of
each parent obtained by stripping the leftmost label, down to the last
label (for an absolute name, the root, whose text is the empty string). -/
def ascentLevels : List String → List String
  | [] => []
  | l :: rest => domainToText (l :: rest) :: ascentLevels rest

/-- Modelled from the spec (section 4.3): `recursive_query` repeatedly
invokes the resolution primitive `q` on the current domain, returning an
answer immediately when one arrives, otherwise stripping the leftmost label
and retrying through the root.  The second component records the domains
queried, in order.  `fierce/fierce.py` is not in the staged sources. -/
def recursive_query (q : String → Option α) : List String → Option α × List String
  | [] => (none, [])
  | l :: rest =>
    match q (domainToText (l :: rest)) with
    | some answer => (some answer, [domainToText (l :: rest)])
    | none =>
      let p := recursive_query q rest
      (p.1, domainToText (l :: rest) :: p.2)

/-- The first non-absent answer `q` gives along a list of domains. -/
def firstAnswer (q : String → Option α) : List String → Option α
  | [] => none
  | t :: ts =>
    match q t with
    | some answer => some answer
    | none => firstAnswer q ts

/-- The domains actually queried along a list of ascent levels: every level
up to and including the first one whose query answers. -/
def levelsQueried (q : String → Option α) : List String → List String
  | [] => []
  | t :: ts =>
    match q t with
    | some _ => [t]
    | none => t :: levelsQueried q ts

theorem recursive_query_all_fail_aux (α : Type) (d : List String) :
    recursive_query (fun _ => (none : Option α)) d = (none, ascentLevels d) := by
  induction d with
  | nil => rfl
  | cons l rest ih => simp [recursive_query, ascentLevels, ih]

theorem ascentLevels_last (d : List String) (habs : d.getLast? = some "") :
    (ascentLevels d).getLast? = some "" := by
  induction d with
  | nil => simp at habs
  | cons l rest ih =>
    cases rest with
    | nil =>
      simp only [List.getLast?_singleton] at habs
      obtain rfl : l = "" := by simpa using habs
      rfl
    | cons m rest2 =>
      rw [List.getLast?_cons_cons] at habs
      have h2 := ih habs
      simp only [ascentLevels] at h2 ⊢
      rw [List.getLast?_cons_cons]
      exact h2

/-- C3: with every underlying query failing, `recursive_query` queries
exactly one level per ascent step, in strictly most-specific-to-least-
specific order, ends with one query of the root (the empty text, for an
absolute starting domain), and returns absent; in particular on
example.com. the queried sequence is exactly "example.com.", "com.", "". -/
theorem recursive_query_all_fail (α : Type) (d : List String)
    (habs : d.getLast? = some "") :
    recursive_query (fun _ => (none : Option α)) d = (none, ascentLevels d) ∧
    (ascentLevels d).getLast? = some "" ∧
    recursive_query (fun _ => (none : Option α)) ["example", "com", ""] =
      (none, ["example.com.", "com.", ""]) :=
  ⟨recursive_query_all_fail_aux α d, ascentLevels_last d habs, by rfl⟩

/-- Witness for C3 at the starting domain example.com. -/
theorem recursive_query_all_fail_witness :
    recursive_query (fun _ => (none : Option Nat)) ["example", "com", ""] =
      (none, ascentLevels ["example", "com", ""]) ∧
    (ascentLevels ["example", "com", ""]).getLast? = some "" ∧
    recursive_query (fun _ => (none : Option Nat)) ["example", "com", ""] =
      (none, ["example.com.", "com.", ""]) :=
  recursive_query_all_fail Nat ["example", "com", ""] (by rfl)

/-- C4: for every starting domain and every behaviour of the underlying
query, `recursive_query` returns the first non-absent answer along the
ascent levels, and the domains it queries are exactly the levels up to and
including the one that answered: no further query is made at a
less-specific level once an answer is obtained. -/
theorem recursive_query_first_answer (α : Type) (q : String → Option α)
    (d : List String) :
    recursive_query q d =
      (firstAnswer q (ascentLevels d), levelsQueried q (ascentLevels d)) := by
  induction d with
  | nil => rfl
  | cons l rest ih =>
    simp only [recursive_query, ascentLevels, firstAnswer, levelsQueried]
    cases q (domainToText (l :: rest)) with
    | some answer => rfl
    | none => simp [ih]

/-- Modelled from the spec (sections 4.2 and 7): the failure classes a DNS
lookup through the injected resolver can raise.  The first three are the
transient classes the resolution primitive swallows; `other` carries every
remaining exception class.  `fierce/fierce.py` is not in the staged
sources. -/
inductive QueryFailure (ε : Type) where
  | nxdomain
  | noNameservers
  | timeout
  | other (e : ε)

/-- Modelled from the spec (section 4.2): `query` issues one lookup through
the injected resolver for a domain and record type; name-does-not-exist,
no-nameservers-available and query timeout become the absent answer, every
other exception class propagates unchanged (here: as the `Except.error`
branch).  `fierce/fierce.py` is not in the staged sources. -/
def query (resolver : String → String → Except (QueryFailure ε) α)
    (domain : String) (record_type : String) : Except ε (Option α) :=
  match resolver domain record_type with
  | .ok answer => .ok (some answer)
  | .error .nxdomain => .ok none
  | .error .noNameservers => .ok none
  | .error .timeout => .ok none
  | .error (.other e) => .error e

/-- C6: `query` returns the absent answer precisely when the injected
resolver's lookup fails with name-does-not-exist, no-nameservers-available
or query timeout; it propagates an exception `e` precisely when the lookup
raised the non-transient class `e`; and it returns an answer precisely when
the lookup returned that answer — so the three transient classes never
raise, and nothing else is swallowed. -/
theorem query_error_handling (ε α : Type)
    (resolver : String → String → Except (QueryFailure ε) α)
    (domain : String) (record_type : String) :
    (query resolver domain record_type = .ok none ↔
      (resolver domain record_type = .error .nxdomain ∨
       resolver domain record_type = .error .noNameservers ∨
       resolver domain record_type = .error .timeout)) ∧
    (∀ e, query resolver domain record_type = .error e ↔
      resolver domain record_type = .error (.other e)) ∧
    (∀ answer, query resolver domain record_type = .ok (some answer) ↔
      resolver domain record_type = .ok answer) := by
  unfold query
  cases h : resolver domain record_type with
  | ok answer => simp
  | error f => cases f <;> simp

/-- Modelled from the spec (sections 4.4 and 7): the failure classes a zone
transfer through the injected transport can raise.  The first four are the
classes `zone_transfer` recognises as "transfer not permitted"; `other`
carries every remaining exception class.  `fierce/fierce.py` is not in the
staged sources. -/
inductive XfrFailure (ε : Type) where
  | connectionError
  | eofError
  | timeoutError
  | formError
  | other (e : ε)

/-- Modelled from the spec (section 4.4): `zone_transfer` attempts one full
zone transfer against a nameserver address for a domain; connection
failure, unexpected end-of-stream, operation timeout and malformed-response
protocol errors become the absent result, every other exception class
propagates unchanged.  `fierce/fierce.py` is not in the staged sources. -/
def zone_transfer (transport : String → String → Except (XfrFailure ε) ζ)
    (address : String) (domain : String) : Except ε (Option ζ) :=
  match transport address domain with
  | .ok zone => .ok (some zone)
  | .error .connectionError => .ok none
  | .error .eofError => .ok none
  | .error .timeoutError => .ok none
  | .error .formError => .ok none
  | .error (.other e) => .error e

/-- C7: `zone_transfer` returns the transferred zone data precisely on a
successful transfer, returns absent precisely when the injected transport
fails with one of the four recognised classes (connection failure,
unexpected end-of-stream, operation timeout, malformed response), and
propagates an exception `e` precisely when the transport raised the
unrecognised class `e`. -/
theorem zone_transfer_error_handling (ε ζ : Type)
    (transport : String → String → Except (XfrFailure ε) ζ)
    (address : String) (domain : String) :
    (zone_transfer transport address domain = .ok none ↔
      (transport address domain = .error .connectionError ∨
       transport address domain = .error .eofError ∨
       transport address domain = .error .timeoutError ∨
       transport address domain = .error .formError)) ∧
    (∀ e, zone_transfer transport address domain = .error e ↔
      transport address domain = .error (.other e)) ∧
    (∀ zone, zone_transfer transport address domain = .ok (some zone) ↔
      transport address domain = .ok zone) := by
  unfold zone_transfer
  cases h : transport address domain with
  | ok zone => simp
  | error f => cases f <;> simp

/-- Modelled from the spec (section 4.1): splitting one possibly
dot-separated subdomain string into segments at the dots, accumulating the
current segment's characters.  `fierce/fierce.py` is not in the staged
sources. -/
def splitSegments : List Char → List Char → List String
  | [], acc => [String.mk acc.reverse]
  | c :: cs, acc =>
    if c = '.' then String.mk acc.reverse :: splitSegments cs []
    else splitSegments cs (c :: acc)

/-- Modelled from the spec (section 4.1): the labels of one possibly
dot-separated subdomain string, e.g. "sd1.sd2" has labels "sd1" then "sd2";
empty segments (as around a trailing dot) contribute no label.
`fierce/fierce.py` is not in the staged sources. -/
def splitLabels (s : String) : List String :=
  (splitSegments s.toList []).filter (fun l => l ≠ "")

/-- Whether a DomainName is absolute: its final label is the empty root
label. -/
def isAbsolute (d : List String) : Bool := d.getLast? == some ""

/-- Modelled from the spec (sections 3 and 4.1): normalization of a
DomainName to absolute (root-terminated) form, appending the empty root
label when it is missing.  `fierce/fierce.py` is not in the staged
sources. -/
def normalizeAbsolute (d : List String) : List String :=
  if isAbsolute d then d else d ++ [""]

/-- Modelled from the spec (section 4.1): `concatenate_subdomains` flattens
the labels of all subdomain strings, in the given order, in front of the
base domain's labels, the base normalized to absolute form.
`fierce/fierce.py` is not in the staged sources. -/
def concatenate_subdomains (domain : List String) (subdomains : List String) :
    List String :=
  (subdomains.map splitLabels).flatten ++ normalizeAbsolute domain

/-- C8: `concatenate_subdomains` on an empty subdomain sequence returns the
base domain normalized to absolute form (appending the root label exactly
when it is missing); each further subdomain string contributes its own
dot-separated labels, most-specific first, in front of the rest; the result
is always absolute; and on example.com. the dotted strings "sd1.sd2" and
"sd3.sd4" flatten in order to sd1.sd2.sd3.sd4.example.com. -/
theorem concatenate_subdomains_spec (domain : List String)
    (subdomains : List String) :
    concatenate_subdomains domain [] = normalizeAbsolute domain ∧
    (∀ s rest, concatenate_subdomains domain (s :: rest) =
      splitLabels s ++ concatenate_subdomains domain rest) ∧
    (concatenate_subdomains domain subdomains).getLast? = some "" ∧
    concatenate_subdomains ["example", "com", ""] ["sd1.sd2"] =
      ["sd1", "sd2", "example", "com", ""] ∧
    concatenate_subdomains ["example", "com", ""] ["sd1.sd2", "sd3.sd4"] =
      ["sd1", "sd2", "sd3", "sd4", "example", "com", ""] ∧
    concatenate_subdomains ["example", "com"] [] = ["example", "com", ""] := by
  have hnorm : ∀ d : List String, (normalizeAbsolute d).getLast? = some "" := by
    intro d
    unfold normalizeAbsolute isAbsolute
    by_cases h : d.getLast? = some ""
    · simp [h]
    · rw [if_neg (by simpa using h),
        List.getLast?_append_of_ne_nil d (by simp)]
      rfl
  refine ⟨by simp [concatenate_subdomains], ?_, ?_, by decide, by decide,
    by decide⟩
  · intro s rest
    simp [concatenate_subdomains]
  · unfold concatenate_subdomains
    rcases hj : (subdomains.map splitLabels).flatten with _ | ⟨a, as⟩
    · simpa using hnorm domain
    · rw [List.getLast?_append_of_ne_nil (a :: as) (by
        intro hcontra
        have hd := hnorm domain
        rw [hcontra] at hd
        simp at hd)]
      exact hnorm domain

/-- A DNS record inside a reverse-lookup answer; its text form is what the
record prints as (the tests' mock records return a stored response from
to_text). -/
structure DnsRecord where
  text : String
deriving DecidableEq, Repr

/-- A reverse-lookup result: a non-empty sequence of records, the first of
which is the one whose text form the filter predicate inspects
(tests/test_fierce.py, test_find_nearby_filter_func). -/
structure ReverseResult where
  first : DnsRecord
  rest : List DnsRecord
deriving DecidableEq, Repr

/-- The dotted-quad text form of an IPv4 address given as its 32-bit
value. -/
def ipToText (ip : Nat) : String :=
  toString (ip / 16777216 % 256) ++ "." ++ toString (ip / 65536 % 256) ++
    "." ++ toString (ip / 256 % 256) ++ "." ++ toString (ip % 256)

/-- Modelled from the spec (section 4.6): `find_nearby` walks the candidate
addresses in input order, reverse-looks each one up, skips an address whose
lookup fails, and, when a filter predicate is supplied, skips an address
whose first record's text form the predicate rejects
(tests/test_fierce.py, test_find_nearby_filter_func); an accepted address
contributes its text form mapped to the raw lookup result.  The mapping is
an insertion-ordered association list.  `fierce/fierce.py` is not in the
staged sources. -/
def find_nearby (ips : List Nat) (lookup : Nat → Option ReverseResult)
    (filter_func : Option (String → Bool)) :
    List (String × ReverseResult) :=
  match ips with
  | [] => []
  | ip :: rest =>
    match lookup ip with
    | none => find_nearby rest lookup filter_func
    | some result =>
      match filter_func with
      | some f =>
        if f result.first.text then
          (ipToText ip, result) :: find_nearby rest lookup filter_func
        else
          find_nearby rest lookup filter_func
      | none => (ipToText ip, result) :: find_nearby rest lookup filter_func

/-- Whether a lookup result passes the (optional) filter: absent filter
accepts everything, a present one inspects the first record's text form. -/
def passesFilter (filter_func : Option (String → Bool))
    (result : ReverseResult) : Bool :=
  match filter_func with
  | none => true
  | some f => f result.first.text

/-- C9: `find_nearby` on the empty sequence is the empty mapping; in
general it is exactly the input sequence filtered down to the addresses
whose lookup succeeds with a result the filter accepts, each mapped, in
input order, from its dotted text form to that lookup result; and when
every lookup succeeds and the filter accepts all of them, the mapping pairs
every input address's text form with its lookup result, in input order. -/
theorem find_nearby_spec (ips : List Nat)
    (lookup : Nat → Option ReverseResult)
    (filter_func : Option (String → Bool)) :
    find_nearby [] lookup filter_func = [] ∧
    find_nearby ips lookup filter_func = ips.filterMap (fun ip =>
      match lookup ip with
      | none => none
      | some result =>
        if passesFilter filter_func result then some (ipToText ip, result)
        else none) ∧
    (∀ results : Nat → ReverseResult,
      (∀ ip ∈ ips, lookup ip = some (results ip) ∧
        passesFilter filter_func (results ip) = true) →
      find_nearby ips lookup filter_func =
        ips.map (fun ip => (ipToText ip, results ip))) := by
  have hmain : ∀ l : List Nat,
      find_nearby l lookup filter_func = l.filterMap (fun ip =>
        match lookup ip with
        | none => none
        | some result =>
          if passesFilter filter_func result then some (ipToText ip, result)
          else none) := by
    intro l
    induction l with
    | nil => rfl
    | cons ip rest ih =>
      rw [List.filterMap_cons]
      cases hl : lookup ip with
      | none => simpa [find_nearby, hl] using ih
      | some result =>
        cases hf : filter_func with
        | none => simpa [find_nearby, hl, hf, passesFilter] using ih
        | some f =>
          by_cases hp : f result.first.text = true
          · simpa [find_nearby, hl, hf, passesFilter, hp] using ih
          · simp only [Bool.not_eq_true] at hp
            simpa [find_nearby, hl, hf, passesFilter, hp] using ih
  refine ⟨rfl, hmain ips, ?_⟩
  intro results hall
  rw [hmain ips]
  induction ips with
  | nil => rfl
  | cons ip rest ih =>
    have hip := hall ip (by simp)
    rw [List.filterMap_cons, List.map_cons, hip.1]
    simp only [hip.2, if_true]
    rw [ih (fun x hx => hall x (List.mem_cons_of_mem ip hx))]

/-- C10: a supplied filter predicate is applied to the text form of the
first record inside the reverse-lookup result, while the value stored for
an accepted address is the raw result object itself: acceptance is
equivalent to the predicate holding of `result.first.text`, and the stored
value is `result`, not that text. -/
theorem find_nearby_filter_sees_text (lookup : Nat → Option ReverseResult)
    (f : String → Bool) (ip : Nat) (result : ReverseResult)
    (h : lookup ip = some result) :
    (find_nearby [ip] lookup (some f) ≠ [] ↔ f result.first.text = true) ∧
    (f result.first.text = true →
      find_nearby [ip] lookup (some f) = [(ipToText ip, result)]) := by
  constructor
  · by_cases hp : f result.first.text = true
    · simp [find_nearby, h, hp]
    · simp only [Bool.not_eq_true] at hp
      simp [find_nearby, h, hp]
  · intro hp
    simp [find_nearby, h, hp]

/-- Witness for C10 at the repository's filter test inputs: 192.168.1.0
reverse-resolves to a result whose first record reads sd1.example.com., the
filter accepts exactly that text, and the stored value is the raw
result. -/
theorem find_nearby_filter_sees_text_witness :
    (find_nearby [3232235776]
        (fun _ => some ⟨⟨"sd1.example.com."⟩, []⟩)
        (some (fun s => s == "sd1.example.com.")) ≠ [] ↔
      ((fun s => s == "sd1.example.com.")
        (ReverseResult.first ⟨⟨"sd1.example.com."⟩, []⟩).text = true)) ∧
    (((fun s => s == "sd1.example.com.")
        (ReverseResult.first ⟨⟨"sd1.example.com."⟩, []⟩).text = true) →
      find_nearby [3232235776]
        (fun _ => some ⟨⟨"sd1.example.com."⟩, []⟩)
        (some (fun s => s == "sd1.example.com.")) =
        [(ipToText 3232235776, ⟨⟨"sd1.example.com."⟩, []⟩)]) :=
  find_nearby_filter_sees_text
    (fun _ => some ⟨⟨"sd1.example.com."⟩, []⟩)
    (fun s => s == "sd1.example.com.")
    3232235776 ⟨⟨"sd1.example.com."⟩, []⟩ rfl
